import Mathlib

/-!
Verification development for the GDFX disc-image loader and its robust I/O
layer.  The definitions below are shallow embeddings of the C++ sources
`src/xenia/base/robust_file_io.cc` / `.h` and
`src/xenia/vfs/devices/disc_image_device.cc`.  Machine integers are modelled
as `Nat` with explicit truncation where the C++ width matters; fallible
operations return explicit result values, mirroring the C++ code which never
throws across the modelled boundaries.
-/

/-! ## CRC-32 (robust_file_io.cc, `InitializeCRC32Table` / `CalculateCRC32`) -/

/-- One iteration of the CRC table generator loop body:
`crc = (crc >> 1) ^ ((crc & 1) ? 0xEDB88320 : 0)` on a 32-bit register. -/
def crc32Step (crc : Nat) : Nat :=
  (crc >>> 1) ^^^ (if crc &&& 1 = 1 then 0xEDB88320 else 0)

/-- Entry `i` of the 256-entry CRC-32 lookup table: eight iterations of
`crc32Step` starting from `i`, as built by `InitializeCRC32Table`. -/
def crc32TableEntry (i : Nat) : Nat :=
  Nat.iterate crc32Step 8 i

/-- The running-register update of `CalculateCRC32`:
`crc = (crc >> 8) ^ crc32_table[(crc ^ data[i]) & 0xFF]`. -/
def crc32Update (crc b : Nat) : Nat :=
  (crc >>> 8) ^^^ crc32TableEntry ((crc ^^^ b) &&& 0xFF)

/-- `CalculateCRC32(data, length)`: initial register `0xFFFFFFFF`, fold the
table-driven update over the bytes, complement (`~crc`, i.e. XOR with the
32-bit all-ones mask) the final register. -/
def CalculateCRC32 (data : List Nat) : Nat :=
  (data.foldl crc32Update 0xFFFFFFFF) ^^^ 0xFFFFFFFF

/-- ASCII bytes of the string "123456789", the standard CRC check input. -/
def crcCheckInput : List Nat := [49, 50, 51, 52, 53, 54, 55, 56, 57]

/-! ## Robust file reader (robust_file_io.h / robust_file_io.cc)

The `message` field of `IOResult` is a log-only string in the C++ code and is
never inspected by any control flow, so it is omitted from the embedding. -/

/-- Error taxonomy of the I/O layer (`enum class IOErrorType`). -/
inductive IOErrorType where
  | Success
  | FileNotFound
  | AccessDenied
  | ReadError
  | WriteError
  | CorruptedData
  | DeviceNotReady
  | DeviceRemoved
  | Timeout
  | InterferenceDetected
  | ChecksumMismatch
  | PartialRead
  | Unknown
  deriving DecidableEq

/-- Result of one file operation (`struct IOResult`, sans the log message). -/
structure IOResult where
  error : IOErrorType
  bytesProcessed : Nat
  retryCount : Nat
  recovered : Bool
  deriving DecidableEq

/-- `IOResult::RequiresRetry`: the code's own classification of which error
kinds are retryable. -/
def IOResult.RequiresRetry (r : IOResult) : Bool :=
  r.error = IOErrorType.ReadError ∨
  r.error = IOErrorType.DeviceNotReady ∨
  r.error = IOErrorType.InterferenceDetected ∨
  r.error = IOErrorType.Timeout ∨
  r.error = IOErrorType.PartialRead

/-- `struct RobustIOConfig` with its C++ default member values. -/
structure RobustIOConfig where
  maxRetries : Nat := 5
  retryDelayMs : Nat := 100
  exponentialBackoff : Bool := true
  verifyChecksum : Bool := true
  verifyFileSize : Bool := true
  readChunkSize : Nat := 1048576
  bufferSizeBytes : Nat := 4194304
  detectInterference : Bool := true
  interferenceThresholdMs : Nat := 500
  failFast : Bool := false
  logErrors : Bool := true
  deriving DecidableEq

/-- `RobustFileReader::DetectInterference`: flags a read whose elapsed time
exceeds both five times the time a reference 100 MB/s device would need and
the configured threshold.  The C++ computes the reference time in `double`
(`bytes / (100.0*1024.0*1024.0) * 1000.0`); the comparison is rendered here
as the exact cross-multiplied integer inequality
`timeMs * (100*1024*1024) > bytes * 5 * 1000`. -/
def DetectInterference (cfg : RobustIOConfig) (readTimeMs bytesRead : Nat) : Bool :=
  cfg.detectInterference &&
    (decide (readTimeMs * (100 * 1024 * 1024) > bytesRead * 5 * 1000) &&
     decide (readTimeMs > cfg.interferenceThresholdMs))

/-- Sleep duration computed by `RobustFileReader::WaitBeforeRetry`:
`retry_delay_ms * 2^(retry_count-1)` capped at 5000 ms under exponential
backoff, else the constant `retry_delay_ms`. -/
def WaitBeforeRetryDelay (cfg : RobustIOConfig) (retryCount : Nat) : Nat :=
  if cfg.exponentialBackoff then
    min (cfg.retryDelayMs * 2 ^ (retryCount - 1)) 5000
  else cfg.retryDelayMs

/-- Observable outcome of one attempt of the `ReadWithRetry` loop body:
the `ifstream` open can fail, the whole-file read can fail (with the
attempt's `DetectInterference` verdict abstracted into the outcome), the
read can be short (`gcount != file_size`), the read can succeed delivering
`file_size` bytes, or the body can throw. -/
inductive AttemptOutcome where
  | openFail
  | readFail (interference : Bool)
  | shortRead (bytesRead fileSize : Nat)
  | readOk (fileSize : Nat)
  | exnThrow
  deriving DecidableEq

/-- Whether an attempt outcome is the successful full read. -/
def AttemptOutcome.isSuccess : AttemptOutcome → Bool
  | .readOk _ => true
  | _ => false

/-- The `IOResult` value the loop body of `ReadWithRetry` produces for one
attempt outcome at retry index `retry`, exactly as assigned in the source:
open failure gives FileNotFound; a failed read gives ReadError, upgraded to
InterferenceDetected when the attempt was flagged; a short read gives
PartialRead carrying the bytes read; success carries the full size and
`recovered = (retry > 0)`; an exception gives Unknown. -/
def attemptIOResult (o : AttemptOutcome) (retry : Nat) : IOResult :=
  match o with
  | .openFail => ⟨IOErrorType.FileNotFound, 0, retry, false⟩
  | .readFail infl =>
      ⟨if infl then IOErrorType.InterferenceDetected else IOErrorType.ReadError,
       0, retry, false⟩
  | .shortRead b _ => ⟨IOErrorType.PartialRead, b, retry, false⟩
  | .readOk n => ⟨IOErrorType.Success, n, retry, decide (0 < retry)⟩
  | .exnThrow => ⟨IOErrorType.Unknown, 0, retry, false⟩

/-- Trace of a `ReadWithRetry` run: the returned result, the number of
attempts made, and the sleeps performed (in order, in milliseconds). -/
structure RetryTrace where
  result : IOResult
  attempts : Nat
  delays : List Nat
  deriving DecidableEq

/-- The `for (retry = 0; retry <= max_retries; retry++)` loop of
`RobustFileReader::ReadWithRetry`, written with the remaining iteration
count (`cfg.maxRetries + 1 - retry`) as the structural argument.  Before
each iteration with `retry > 0` the loop sleeps `WaitBeforeRetryDelay`;
a successful attempt returns immediately; a failed attempt stores its
result in `last` and continues; when iterations are exhausted the last
failure is returned. -/
def ReadWithRetryGo (cfg : RobustIOConfig) (oracle : Nat → AttemptOutcome) :
    Nat → Nat → IOResult → List Nat → Nat → RetryTrace
  | 0, _, last, delays, attempts => ⟨last, attempts, delays⟩
  | remaining + 1, retry, _last, delays, attempts =>
      let delays' := if 0 < retry then delays ++ [WaitBeforeRetryDelay cfg retry]
                     else delays
      let r := attemptIOResult (oracle retry) retry
      if r.error = IOErrorType.Success then ⟨r, attempts + 1, delays'⟩
      else ReadWithRetryGo cfg oracle remaining (retry + 1) r delays' (attempts + 1)

/-- `RobustFileReader::ReadWithRetry` on an attempt oracle.  The initial
`last_result` is irrelevant: the loop always executes at least the
`retry = 0` iteration. -/
def ReadWithRetry (cfg : RobustIOConfig) (oracle : Nat → AttemptOutcome) : RetryTrace :=
  ReadWithRetryGo cfg oracle (cfg.maxRetries + 1) 0
    ⟨IOErrorType.Success, 0, 0, false⟩ [] 0

/-- Observable outcome of one chunk read inside `ReadFileChunked`: whether the
`file.read` left the stream in a failed state, and the chunk's measured
duration in milliseconds. -/
structure ChunkOutcome where
  fail : Bool
  duration : Nat
  deriving DecidableEq

/-- Trace of a `ReadFileChunked` run: the returned result, the arguments of
every `progress_cb` invocation in order (`(bytes_read, total_size)` pairs),
and the `(duration, size)` pairs passed to
`InterferenceDetector::RecordIOTiming` in order. -/
structure ChunkedTrace where
  result : IOResult
  progress : List (Nat × Nat)
  fed : List (Nat × Nat)
  deriving DecidableEq

/-- The `while (bytes_read < file_size)` loop of
`RobustFileReader::ReadFileChunked`, with an explicit fuel as the structural
argument (the loop advances by `min(read_chunk_size, file_size - bytes_read)`
bytes per iteration, so `file_size + 1` fuel is never exhausted when
`read_chunk_size > 0`; the fuel-0 branch is unreachable under that
hypothesis).  Per iteration: read one chunk; on stream failure return
ReadError carrying the bytes already consumed (the failing chunk feeds only
the reader's interference counter, not the process-wide detector); otherwise
advance `bytes_read`, invoke the progress callback with the cumulative count,
and feed the chunk's `(duration, size)` to the detector exactly when
`DetectInterference` flags it. -/
def ReadFileChunkedGo (cfg : RobustIOConfig) (oracle : Nat → ChunkOutcome)
    (fileSize : Nat) :
    Nat → Nat → Nat → List (Nat × Nat) → List (Nat × Nat) → ChunkedTrace
  | 0, _, bytesRead, progress, fed =>
      ⟨⟨IOErrorType.ReadError, bytesRead, 0, false⟩, progress, fed⟩
  | fuel + 1, chunkIdx, bytesRead, progress, fed =>
      if bytesRead < fileSize then
        let toRead := min cfg.readChunkSize (fileSize - bytesRead)
        let o := oracle chunkIdx
        if o.fail then
          ⟨⟨IOErrorType.ReadError, bytesRead, 0, false⟩, progress, fed⟩
        else
          let bytesRead' := bytesRead + toRead
          let progress' := progress ++ [(bytesRead', fileSize)]
          let fed' := if DetectInterference cfg o.duration toRead then
              fed ++ [(o.duration, toRead)] else fed
          ReadFileChunkedGo cfg oracle fileSize fuel (chunkIdx + 1) bytesRead'
            progress' fed'
      else ⟨⟨IOErrorType.Success, bytesRead, 0, false⟩, progress, fed⟩

/-- `RobustFileReader::ReadFileChunked` on a chunk oracle.  `openOk` models
whether the `ifstream` opened; `fileSize` is `tellg` at end.  There is no
retry of any kind in this function. -/
def ReadFileChunked (cfg : RobustIOConfig) (openOk : Bool)
    (oracle : Nat → ChunkOutcome) (fileSize : Nat) : ChunkedTrace :=
  if openOk then ReadFileChunkedGo cfg oracle fileSize (fileSize + 1) 0 0 [] []
  else ⟨⟨IOErrorType.FileNotFound, 0, 0, false⟩, [], []⟩

/-- Fuel-structural worker for `specChunks`: each emitted chunk removes at
least one byte, so fuel equal to the remaining byte count suffices. -/
def specChunksF (chunk : Nat) : Nat → Nat → List Nat
  | 0, _ => []
  | fuel + 1, r =>
      if r = 0 then []
      else if chunk = 0 then []
      else min chunk r :: specChunksF chunk fuel (r - min chunk r)

/-- The list of chunk sizes the loop works through for a given chunk size and
remaining byte count: `min chunk remaining` repeatedly until nothing remains.
This is the specification-side description of "streams the file in fixed-size
chunks"; the theorems below relate `ReadFileChunkedGo` to it. -/
def specChunks (chunk r : Nat) : List Nat := specChunksF chunk r r

/-- Specification-side cumulative progress reports: starting from `b` bytes
already read, the `(bytes_read, total_size)` pairs the loop reports after
each chunk of the given sizes. -/
def specProgress (fileSize : Nat) : Nat → List Nat → List (Nat × Nat)
  | _, [] => []
  | b, c :: cs => (b + c, fileSize) :: specProgress fileSize (b + c) cs

/-- Specification-side detector feed: among chunks of the given sizes
starting at chunk index `idx`, the `(duration, size)` pairs of exactly those
chunks the interference heuristic flags. -/
def specFed (cfg : RobustIOConfig) (oracle : Nat → ChunkOutcome) :
    Nat → List Nat → List (Nat × Nat)
  | _, [] => []
  | idx, c :: cs =>
      if DetectInterference cfg (oracle idx).duration c then
        ((oracle idx).duration, c) :: specFed cfg oracle (idx + 1) cs
      else specFed cfg oracle (idx + 1) cs

/-! ## Disc image device (disc_image_device.cc)

The image is modelled as a total byte function plus a size; in-bounds reads
agree with the mapped file, and the device never dereferences out of bounds
on the paths proved here.  Multi-byte fields are read via `xe::load`; that
helper's source is not part of the surveyed tree, and the specification fixes
the on-disk convention as big-endian, so the load functions below decode
big-endian.  None of the verified properties depend on the byte order. -/

/-- Sector size constant `kXESectorSize = 2_KiB`. -/
def kXESectorSize : Nat := 2048

/-- Device-layer error taxonomy (`DiscImageDevice::Error`). -/
inductive DiscError where
  | kSuccess
  | kErrorFileMismatch
  | kErrorDamagedFile
  | kErrorReadError
  | kErrorOutOfMemory
  deriving DecidableEq

/-- `DiscImageDevice::ParseState`: the image base/size plus the values the
verifier fills in.  `byte i` is the byte at absolute offset `i` of the
mapped image (reduced mod 256 at every load). -/
structure ParseState where
  byte : Nat → Nat
  size : Nat
  gameOffset : Nat := 0
  rootSector : Nat := 0
  rootSize : Nat := 0
  rootOffset : Nat := 0

/-- Single byte load (`xe::load<uint8_t>`). -/
def load8 (st : ParseState) (off : Nat) : Nat := st.byte off % 256

/-- Modelled from the spec: 16-bit load at `off` (`xe::load<uint16_t>`, whose
source is outside the surveyed tree; the spec fixes big-endian order). -/
def load16 (st : ParseState) (off : Nat) : Nat :=
  load8 st off * 256 + load8 st (off + 1)

/-- Modelled from the spec: 32-bit load at `off` (`xe::load<uint32_t>`, whose
source is outside the surveyed tree; the spec fixes big-endian order). -/
def load32 (st : ParseState) (off : Nat) : Nat :=
  ((load8 st off * 256 + load8 st (off + 1)) * 256 + load8 st (off + 2)) * 256
    + load8 st (off + 3)

/-- The `n` bytes starting at absolute offset `off`. -/
def readBytes (st : ParseState) (off n : Nat) : List Nat :=
  (List.range n).map (fun i => load8 st (off + i))

/-- ASCII bytes of the 20-byte magic "MICROSOFT*XBOX*MEDIA". -/
def kMagic : List Nat :=
  [77, 73, 67, 82, 79, 83, 79, 70, 84, 42, 88, 66, 79, 88, 42, 77, 69, 68, 73, 65]

/-- The fixed candidate list `likely_offsets` of `DiscImageDevice::Verify`,
in source order. -/
def likelyOffsets : List Nat :=
  [0x00000000, 0x0000FB20, 0x00020600, 0x02080000, 0x0FD90000]

/-- `DiscImageDevice::VerifyMagic`: false when the offset is at or past the
image end, else a 20-byte compare against the magic. -/
def VerifyMagic (st : ParseState) (offset : Nat) : Bool :=
  if st.size ≤ offset then false
  else readBytes st offset 20 == kMagic

/-- The scan loop of `Verify`: the first candidate offset whose sector-32
magic matches, in list order. -/
def findGameOffset (st : ParseState) : Option Nat :=
  likelyOffsets.find? (fun g => VerifyMagic st (g + 32 * kXESectorSize))

/-- The portion of `DiscImageDevice::Verify` after the magic scan succeeded,
operating on a state whose `gameOffset` holds the matched candidate: the
file-size check (returning `kErrorReadError`), the root descriptor loads at
`+20`/`+24` past the magic, and the three root validations (each returning
`kErrorDamagedFile`). -/
def VerifyRoot (st : ParseState) : DiscError × ParseState :=
  if st.size < st.gameOffset + 32 * kXESectorSize then
    (DiscError.kErrorReadError, st)
  else
    let fsOff := st.gameOffset + 32 * kXESectorSize
    let rootSector := load32 st (fsOff + 20)
    let rootSize := load32 st (fsOff + 24)
    let rootOffset := st.gameOffset + rootSector * kXESectorSize
    let st' := { st with rootSector := rootSector, rootSize := rootSize,
                         rootOffset := rootOffset }
    if rootSize < 13 ∨ 32 * 1024 * 1024 < rootSize then
      (DiscError.kErrorDamagedFile, st')
    else if st'.size ≤ rootOffset then
      (DiscError.kErrorDamagedFile, st')
    else if st'.size < rootOffset + rootSize then
      (DiscError.kErrorDamagedFile, st')
    else (DiscError.kSuccess, st')

/-- `DiscImageDevice::Verify`: scan the candidate list; without a match the
loop leaves `game_offset` at the last candidate and the function returns
`kErrorFileMismatch`; with a match, continue with `VerifyRoot`. -/
def Verify (st : ParseState) : DiscError × ParseState :=
  match findGameOffset st with
  | none => (DiscError.kErrorFileMismatch, { st with gameOffset := 0x0FD90000 })
  | some g => VerifyRoot { st with gameOffset := g }

/-- In-memory filesystem entry (`DiscImageEntry`): name bytes, attribute
flags, logical size, allocation size, data offset/length into the image, and
the owned children in decode order.  The three fixed timestamps carry no
information (every entry gets the same constant) and are omitted. -/
inductive DiscEntry : Type where
  | mk : List Nat → Nat → Nat → Nat → Nat → Nat → List DiscEntry → DiscEntry

/-- Name bytes of an entry. -/
def DiscEntry.name : DiscEntry → List Nat
  | .mk n _ _ _ _ _ _ => n

/-- Attribute flags of an entry. -/
def DiscEntry.attributes : DiscEntry → Nat
  | .mk _ a _ _ _ _ _ => a

/-- Logical size (`size_`) of an entry. -/
def DiscEntry.size : DiscEntry → Nat
  | .mk _ _ s _ _ _ _ => s

/-- Allocation size (`allocation_size_`) of an entry. -/
def DiscEntry.allocationSize : DiscEntry → Nat
  | .mk _ _ _ al _ _ _ => al

/-- Data offset (`data_offset_`) of an entry. -/
def DiscEntry.dataOffset : DiscEntry → Nat
  | .mk _ _ _ _ d _ _ => d

/-- Data length (`data_size_`) of an entry. -/
def DiscEntry.dataSize : DiscEntry → Nat
  | .mk _ _ _ _ _ d _ => d

/-- Children (`children_`) of an entry, in decode order. -/
def DiscEntry.children : DiscEntry → List DiscEntry
  | .mk _ _ _ _ _ _ c => c

/-- Directory attribute bit (`kFileAttributeDirectory`, bit 0x10 per the
on-disk format). -/
def kFileAttributeDirectory : Nat := 0x10

/-- Modelled from the spec: read-only attribute flag (`kFileAttributeReadOnly`
from the entry header outside the surveyed tree; the standard value of the
flag is 0x1, and no verified property depends on it beyond not colliding
with bit 0x10). -/
def kFileAttributeReadOnly : Nat := 0x01

/-- `xe::round_up(value, multiple)` = `(value + multiple - 1) / multiple *
multiple`; the device rounds entry sizes up to the sector size.  Modelled
from the spec for the helper outside the surveyed tree. -/
def roundUp (value multiple : Nat) : Nat :=
  if multiple = 0 then value else (value + multiple - 1) / multiple * multiple

/-- Recursion depth cap (`kMaxRecursionDepth`). -/
def kMaxRecursionDepth : Nat := 256

/-- Minimum record footprint used by the ordinal bounds check
(`kMinEntrySize = 4 + 14`). -/
def kMinEntrySize : Nat := 4 + 14

/-- The buffer size actually used by `ReadEntry`: on the first call (null
visited set) a zero `buffer_size` defaults to `root_size`. -/
def effectiveBufferSize (st : ParseState) (bufferSize0 : Nat)
    (visitedIn : Option (List Nat)) : Nat :=
  match visitedIn with
  | none => if bufferSize0 = 0 then st.rootSize else bufferSize0
  | some _ => bufferSize0

/-- `DiscImageDevice::ReadEntry` with an explicit fuel as the structural
recursion argument.  Arguments after the fuel mirror the C++ parameters:
the flat array's base offset into the image (`buffer`), the record ordinal,
the incoming `buffer_size` (defaulted through `effectiveBufferSize`), the
recursion depth, and the visited-ordinal set (`none` models the null
pointer of a fresh top-of-array call; the set is threaded through sibling
recursions and discarded for subdirectory recursions, matching the
by-pointer mutation in the source).  The result is the C++ return flag, the
list of entries the call appended to `parent->children_` (in order), and
the final contents of the visited set.  All recursive calls increase
`depth` by one and are dominated by the `depth > kMaxRecursionDepth` guard,
so with fuel at least `kMaxRecursionDepth + 2 - depth` the fuel-0 branch is
unreachable (`ReadEntryF_fuel_irrelevant` below); the wrapper `ReadEntry`
always supplies enough. -/
def ReadEntryF (st : ParseState) :
    Nat → Nat → Nat → Nat → Nat → Option (List Nat) →
    Bool × List DiscEntry × List Nat
  | 0, _, _, _, _, visitedIn => (false, [], visitedIn.getD [])
  | fuel + 1, bufferOff, entryOrdinal, bufferSize0, depth, visitedIn =>
    let visited0 := visitedIn.getD []
    let bufferSize := effectiveBufferSize st bufferSize0 visitedIn
    if kMaxRecursionDepth < depth then (false, [], visited0)
    else if entryOrdinal ∈ visited0 then (false, [], visited0)
    else
      let visited1 := entryOrdinal :: visited0
      let entryOffset := entryOrdinal * 4
      if 0 < bufferSize ∧ bufferSize < entryOffset + kMinEntrySize then
        (false, [], visited1)
      else
        let p := bufferOff + entryOffset
        let node_l := load16 st p
        let node_r := load16 st (p + 2)
        let sector := load32 st (p + 4)
        let length := load32 st (p + 8)
        let attributes := load8 st (p + 12)
        let name_length := load8 st (p + 13)
        if 0 < bufferSize ∧ bufferSize < entryOffset + 14 + name_length then
          (false, [], visited1)
        else
          let resL :=
            if node_l ≠ 0 then
              ReadEntryF st fuel bufferOff node_l bufferSize (depth + 1)
                (some visited1)
            else (true, [], visited1)
          let visited2 := resL.2.2
          let name := readBytes st (p + 14) name_length
          let baseAttrs := attributes ||| kFileAttributeReadOnly
          let allocSize := roundUp length kXESectorSize
          let entry :=
            if attributes &&& kFileAttributeDirectory ≠ 0 then
              if length ≠ 0 then
                let folderOffset := st.gameOffset + sector * kXESectorSize
                if st.size < folderOffset then
                  DiscEntry.mk name baseAttrs 0 allocSize 0 0 []
                else
                  let resC := ReadEntryF st fuel folderOffset 0 length
                    (depth + 1) none
                  DiscEntry.mk name baseAttrs length allocSize 0 0 resC.2.1
              else DiscEntry.mk name baseAttrs length allocSize 0 0 []
            else
              let fileOffset := st.gameOffset + sector * kXESectorSize
              if st.size ≤ fileOffset then
                DiscEntry.mk name baseAttrs 0 allocSize 0 0 []
              else
                DiscEntry.mk name baseAttrs length allocSize fileOffset length []
          let resR :=
            if node_r ≠ 0 then
              ReadEntryF st fuel bufferOff node_r bufferSize (depth + 1)
                (some visited2)
            else (true, [], visited2)
          (true, resL.2.1 ++ entry :: resR.2.1, resR.2.2)

/-- `DiscImageDevice::ReadEntry`: the fuel-free interface.  The supplied fuel
`kMaxRecursionDepth + 2` can never be exhausted because the depth guard cuts
every call chain first. -/
def ReadEntry (st : ParseState) (bufferOff entryOrdinal bufferSize0 depth : Nat)
    (visitedIn : Option (List Nat)) : Bool × List DiscEntry × List Nat :=
  ReadEntryF st (kMaxRecursionDepth + 2) bufferOff entryOrdinal bufferSize0 depth
    visitedIn

mutual

/-- The entry-counting walk of `ReadAllEntries` (`count_entries`): count the
node, then recurse into children exactly when the directory bit is set
(files never have children, so this equals the total node count). -/
def countEntry : DiscEntry → Nat
  | .mk _ attrs _ _ _ _ cs =>
      1 + (if attrs &&& kFileAttributeDirectory ≠ 0 then countEntryList cs else 0)

/-- Sum of `countEntry` over a child list, as the walk over
`root_entry->children_`. -/
def countEntryList : List DiscEntry → Nat
  | [] => 0
  | e :: es => countEntry e + countEntryList es

end

/-- `DiscImageDevice::ReadAllEntries`: allocate the root directory entry,
run `ReadEntry` from ordinal 0 of the root array (null visited set, zero
`buffer_size` so it defaults to `root_size`, depth 0), ignore the returned
flag, count the materialized entries, and fail with `kErrorOutOfMemory`
exactly when the count is zero. -/
def ReadAllEntries (st : ParseState) : DiscError × DiscEntry :=
  let res := ReadEntry st st.rootOffset 0 0 0 none
  let root := DiscEntry.mk [] kFileAttributeDirectory 0 0 0 0 res.2.1
  if countEntryList res.2.1 = 0 then (DiscError.kErrorOutOfMemory, root)
  else (DiscError.kSuccess, root)

/-- The parsing portion of `DiscImageDevice::Initialize` after the image is
mapped: `Verify`, then — only on success — `ReadAllEntries`; the returned
flag is `Initialize`'s return value and the tree is `root_entry_` (absent
when `Verify` failed, since no decode is attempted). -/
def InitializeParse (st : ParseState) : Bool × Option DiscEntry :=
  match Verify st with
  | (DiscError.kSuccess, st2) =>
      match ReadAllEntries st2 with
      | (DiscError.kSuccess, root) => (true, some root)
      | (_, root) => (false, some root)
  | _ => (false, none)

/-! ## Decidable equality and concrete-image helpers -/

mutual

/-- Structural boolean equality on entries (helper for decidable equality). -/
def DiscEntry.beq : DiscEntry → DiscEntry → Bool
  | .mk n1 a1 s1 al1 d1 ds1 c1, .mk n2 a2 s2 al2 d2 ds2 c2 =>
    n1 == n2 && a1 == a2 && s1 == s2 && al1 == al2 && d1 == d2 && ds1 == ds2 &&
      DiscEntry.beqList c1 c2

/-- Pointwise `DiscEntry.beq` on lists. -/
def DiscEntry.beqList : List DiscEntry → List DiscEntry → Bool
  | [], [] => true
  | e :: es, f :: fs => DiscEntry.beq e f && DiscEntry.beqList es fs
  | _, _ => false

end

mutual

/-- `DiscEntry.beq` decides equality. -/
def DiscEntry.beq_iff : ∀ a b : DiscEntry, DiscEntry.beq a b = true ↔ a = b
  | .mk n1 a1 s1 al1 d1 ds1 c1, .mk n2 a2 s2 al2 d2 ds2 c2 => by
    simp only [DiscEntry.beq, Bool.and_eq_true, beq_iff_eq, DiscEntry.mk.injEq]
    have h := DiscEntry.beqList_iff c1 c2
    tauto

/-- `DiscEntry.beqList` decides list equality. -/
def DiscEntry.beqList_iff : ∀ a b : List DiscEntry,
    DiscEntry.beqList a b = true ↔ a = b
  | [], [] => by simp [DiscEntry.beqList]
  | [], _ :: _ => by simp [DiscEntry.beqList]
  | _ :: _, [] => by simp [DiscEntry.beqList]
  | e :: es, f :: fs => by
    simp only [DiscEntry.beqList, Bool.and_eq_true, List.cons.injEq]
    have h1 := DiscEntry.beq_iff e f
    have h2 := DiscEntry.beqList_iff es fs
    tauto

end

instance : DecidableEq DiscEntry :=
  fun a b => decidable_of_iff _ (DiscEntry.beq_iff a b)

/-- Byte function of a mostly-zero image given by its nonzero positions. -/
def sparseBytes (ps : List (Nat × Nat)) : Nat → Nat :=
  fun i => ((ps.find? (fun q => q.1 == i)).map (fun q => q.2)).getD 0

/-- The default reader configuration (`RobustIOConfig()`): `max_retries = 5`,
`retry_delay_ms = 100`, exponential backoff on. -/
def defaultIOConfig : RobustIOConfig := {}

/-- A source whose open fails on every attempt (file absent for the whole
run of the retry loop). -/
def oracleAllOpenFail : Nat → AttemptOutcome := fun _ => .openFail

/-- A flaky source: the first two attempts fail with a read error, the third
succeeds delivering 42 bytes. -/
def oracleFlaky : Nat → AttemptOutcome :=
  fun j => if j < 2 then .readFail false else .readOk 42

/-- A quiet chunk source: every chunk succeeds instantly (duration 0 ms). -/
def oracleChunksQuiet : Nat → ChunkOutcome := fun _ => ⟨false, 0⟩

/-- A chunk source whose second chunk (index 1) fails; all others succeed
instantly. -/
def oracleChunkFailAt1 : Nat → ChunkOutcome :=
  fun i => if i = 1 then ⟨true, 0⟩ else ⟨false, 0⟩

/-- A reader configuration with 4-byte chunks (and interference detection
enabled, as by default). -/
def cfgChunk4 : RobustIOConfig := { readChunkSize := 4 }

/-- Concrete image for the cycle/containment tests.  Root flat array at
offset 0 (`game_offset = 0`, `root_size = 64`, image size 4096):
record 0 has `node_l = 5`, `node_r = 10`; record 5 (offset 20) is a file
named "A" whose `node_l = 5` points at itself (a cycle on the current
path); record 10 (offset 40) is a directory named "B" with
`sector = 1, length = 64`, whose own flat array at offset 2048 reuses
ordinal 5 (record 0 there has `node_l = 5`), which only a fresh
per-array visited set allows to decode. -/
def imgC1 : ParseState :=
  { byte := sparseBytes [(1, 5), (3, 10), (11, 5), (13, 1), (14, 82),
      (21, 5), (31, 3), (33, 1), (34, 65),
      (47, 1), (51, 64), (52, 16), (53, 1), (54, 66),
      (2049, 5), (2059, 9), (2061, 1), (2062, 68),
      (2079, 11), (2081, 1), (2082, 69)],
    size := 4096, gameOffset := 0, rootSector := 0, rootSize := 64,
    rootOffset := 0 }

/-- Concrete image whose single root record is a directory named "A"
(`attr = 0x10`) with `sector = 1, length = 100`, on an image of size
exactly 2048: the directory's computed data offset `0 + 1*2048` equals the
image size, i.e. lies at (not beyond) the end. -/
def imgC2dir : ParseState :=
  { byte := sparseBytes [(7, 1), (11, 100), (12, 16), (13, 1), (14, 65)],
    size := 2048, gameOffset := 0, rootSector := 0, rootSize := 32,
    rootOffset := 0 }

/-- Concrete image whose single root record is a file named "F"
(`attr = 0`) with `sector = 1, length = 50`, on an image of size 100: the
file's computed data offset `0 + 1*2048 = 2048` lies beyond the image. -/
def imgC2file : ParseState :=
  { byte := sparseBytes [(7, 1), (11, 50), (13, 1), (14, 70)],
    size := 100, gameOffset := 0, rootSector := 0, rootSize := 32,
    rootOffset := 0 }

/-- The byte placements of the 20 magic bytes starting at offset `off`. -/
def magicAt (off : Nat) : List (Nat × Nat) :=
  (List.range 20).map (fun i => (off + i, kMagic.getD i 0))

/-- Concrete image carrying the GDFX magic at candidate offsets 0x0000FB20
and 0x02080000 (and nowhere else), with a valid root descriptor after the
first of the two: `root_sector = 0`, `root_size = 100`. -/
def imgC3 : ParseState :=
  { byte := sparseBytes (magicAt (0xFB20 + 0x10000) ++ magicAt (0x02080000 + 0x10000)
      ++ [(0xFB20 + 0x10000 + 27, 100)]),
    size := 34200000 }

/-- Concrete image carrying the GDFX magic at candidate offset 0 only, whose
root descriptor declares `root_sector = 0` and `root_size = 12` (below the
minimum of 13). -/
def imgC4 : ParseState :=
  { byte := sparseBytes (magicAt 0x10000 ++ [(0x10000 + 27, 12)]),
    size := 70000 }

/-- Concrete all-zero image of size 100: too small to contain a superblock
at the (default) matched offset 0. -/
def imgTooSmall : ParseState := { byte := fun _ => 0, size := 100 }

/-- Concrete all-zero image of size 200000: no candidate offset carries the
magic. -/
def imgNoMagic : ParseState := { byte := fun _ => 0, size := 200000 }

/-! ## Theorems

Shared helper lemmas first, then one theorem per claim (with witnesses where
the claim theorem carries hypotheses). -/

/-- An attempt's `IOResult` is `Success` exactly for the full-read outcome. -/
theorem attemptIOResult_error_eq_success (o : AttemptOutcome) (t : Nat) :
    (attemptIOResult o t).error = IOErrorType.Success ↔ o.isSuccess = true := by
  cases o with
  | readFail infl => cases infl <;> simp [attemptIOResult, AttemptOutcome.isSuccess]
  | _ => simp [attemptIOResult, AttemptOutcome.isSuccess]

/-- The retry loop makes at most `rem` further attempts. -/
theorem ReadWithRetryGo_attempts_le (cfg : RobustIOConfig)
    (oracle : Nat → AttemptOutcome) :
    ∀ rem retry last ds a,
      (ReadWithRetryGo cfg oracle rem retry last ds a).attempts ≤ a + rem := by
  intro rem
  induction rem with
  | zero => intro retry last ds a; simp [ReadWithRetryGo]
  | succ m ih =>
    intro retry last ds a
    simp only [ReadWithRetryGo]
    split
    · simp
    · exact le_trans (ih _ _ _ _) (by omega)

/-- Prepending the delay of retry `r` to the delays of retries `r+1 ≤ …`
gives the delays of retries `r ≤ …`. -/
theorem waitDelays_shift (cfg : RobustIOConfig) (r m : Nat) :
    WaitBeforeRetryDelay cfg r ::
      (List.range m).map (fun i => WaitBeforeRetryDelay cfg (r + 1 + i)) =
    (List.range (m + 1)).map (fun i => WaitBeforeRetryDelay cfg (r + i)) := by
  rw [List.range_succ_eq_map, List.map_cons, List.map_map]
  simp only [Nat.add_zero]
  congr 1
  apply List.map_congr_left
  intro i hi
  simp only [Function.comp_apply]
  congr 1
  omega

/-- Entering the loop at retry index `retry ≥ 1` with the first success at
attempt `k` within fuel: the loop returns that success immediately, having
made the intervening attempts and slept before each of them. -/
theorem ReadWithRetryGo_first_success (cfg : RobustIOConfig)
    (oracle : Nat → AttemptOutcome) (k n : Nat) (hk : oracle k = .readOk n) :
    ∀ rem retry last ds a, 1 ≤ retry → retry ≤ k → k < retry + rem →
      (∀ j, retry ≤ j → j < k → (oracle j).isSuccess = false) →
      ReadWithRetryGo cfg oracle rem retry last ds a =
        ⟨⟨IOErrorType.Success, n, k, decide (0 < k)⟩, a + (k + 1 - retry),
         ds ++ (List.range (k + 1 - retry)).map
           (fun i => WaitBeforeRetryDelay cfg (retry + i))⟩ := by
  intro rem
  induction rem with
  | zero => intro retry last ds a h1 h2 h3 hf; omega
  | succ m ih =>
    intro retry last ds a h1 h2 h3 hf
    have h0 : 0 < retry := h1
    simp only [ReadWithRetryGo, if_pos h0]
    rcases Nat.eq_or_lt_of_le h2 with heq | hlt
    · subst heq
      rw [hk]
      have hsucc : (attemptIOResult (AttemptOutcome.readOk n) retry).error =
          IOErrorType.Success := rfl
      rw [if_pos hsucc]
      have hr : retry + 1 - retry = 1 := by omega
      rw [hr]
      simp [attemptIOResult, List.range_succ]
    · have hfail : (oracle retry).isSuccess = false := hf retry le_rfl hlt
      have herr : ¬ (attemptIOResult (oracle retry) retry).error =
          IOErrorType.Success := by
        rw [attemptIOResult_error_eq_success]
        simp [hfail]
      rw [if_neg herr]
      rw [ih (retry + 1) _ _ _ (by omega) hlt (by omega)
        (fun j hj1 hj2 => hf j (by omega) hj2)]
      have h5 : k + 1 - retry = (k + 1 - (retry + 1)) + 1 := by omega
      have hatt : a + 1 + (k + 1 - (retry + 1)) = a + (k + 1 - retry) := by omega
      rw [hatt]
      congr 1
      rw [h5, List.range_succ_eq_map, List.map_cons, List.map_map]
      simp only [List.append_assoc, List.singleton_append, Nat.add_zero]
      congr 1
      congr 1
      apply List.map_congr_left
      intro i hi
      simp only [Function.comp_apply]
      congr 1
      omega

/-- Entering the loop at retry index `retry ≥ 1` with every remaining attempt
failing: the loop consumes all the fuel, sleeping before every attempt, and
returns the result of the last attempt. -/
theorem ReadWithRetryGo_exhausted (cfg : RobustIOConfig)
    (oracle : Nat → AttemptOutcome) :
    ∀ rem retry last ds a, 1 ≤ retry → 1 ≤ rem →
      (∀ j, retry ≤ j → j < retry + rem → (oracle j).isSuccess = false) →
      ReadWithRetryGo cfg oracle rem retry last ds a =
        ⟨attemptIOResult (oracle (retry + rem - 1)) (retry + rem - 1), a + rem,
         ds ++ (List.range rem).map
           (fun i => WaitBeforeRetryDelay cfg (retry + i))⟩ := by
  intro rem
  induction rem with
  | zero => intro retry last ds a h1 h2 hf; omega
  | succ m ih =>
    intro retry last ds a h1 h2 hf
    have h0 : 0 < retry := h1
    have hfail : (oracle retry).isSuccess = false := hf retry le_rfl (by omega)
    have herr : ¬ (attemptIOResult (oracle retry) retry).error =
        IOErrorType.Success := by
      rw [attemptIOResult_error_eq_success]
      simp [hfail]
    simp only [ReadWithRetryGo, if_pos h0, if_neg herr]
    cases m with
    | zero =>
      simp [ReadWithRetryGo, List.range_succ, attemptIOResult]
    | succ m2 =>
      rw [ih (retry + 1) _ _ _ (by omega) (by omega)
        (fun j hj1 hj2 => hf j (by omega) (by omega))]
      have he : retry + 1 + (m2 + 1) - 1 = retry + (m2 + 1 + 1) - 1 := by omega
      have hatt : a + 1 + (m2 + 1) = a + (m2 + 1 + 1) := by omega
      rw [he, hatt]
      congr 1
      rw [List.append_assoc, List.singleton_append, waitDelays_shift]

/-- C7: The retry loop makes at most `max_retries + 1` attempts; before each
retry (but not before the first attempt) it sleeps
`retry_delay_ms * 2^(retry-1)` milliseconds capped at 5000 ms under
exponential backoff, else a constant delay; it returns the first successful
result immediately, with `recovered` true exactly when at least one prior
attempt failed, `retry_count` equal to the index of the succeeding attempt
and the backoff sleeps before attempts `1 … k`; and it returns the last
failure result once all attempts are exhausted. -/
theorem readWithRetry_loop_spec :
    (∀ (cfg : RobustIOConfig) (oracle : Nat → AttemptOutcome),
        (ReadWithRetry cfg oracle).attempts ≤ cfg.maxRetries + 1) ∧
    (∀ (cfg : RobustIOConfig) (r : Nat), WaitBeforeRetryDelay cfg r =
        if cfg.exponentialBackoff then min (cfg.retryDelayMs * 2 ^ (r - 1)) 5000
        else cfg.retryDelayMs) ∧
    (∀ (cfg : RobustIOConfig) (oracle : Nat → AttemptOutcome) (k n : Nat),
        k ≤ cfg.maxRetries →
        (∀ j, j < k → (oracle j).isSuccess = false) →
        oracle k = .readOk n →
        ReadWithRetry cfg oracle =
          ⟨⟨IOErrorType.Success, n, k, decide (0 < k)⟩, k + 1,
           (List.range k).map (fun i => WaitBeforeRetryDelay cfg (i + 1))⟩) ∧
    (∀ (cfg : RobustIOConfig) (oracle : Nat → AttemptOutcome),
        (∀ j, j ≤ cfg.maxRetries → (oracle j).isSuccess = false) →
        ReadWithRetry cfg oracle =
          ⟨attemptIOResult (oracle cfg.maxRetries) cfg.maxRetries,
           cfg.maxRetries + 1,
           (List.range cfg.maxRetries).map
             (fun i => WaitBeforeRetryDelay cfg (i + 1))⟩) := by
  refine ⟨?_, ?_, ?_, ?_⟩
  · intro cfg oracle
    exact le_trans (ReadWithRetryGo_attempts_le cfg oracle _ _ _ _ _) (by omega)
  · intro cfg r
    rfl
  · intro cfg oracle k n hk hf hok
    unfold ReadWithRetry
    simp only [ReadWithRetryGo]
    rw [if_neg (by omega : ¬ 0 < 0)]
    cases k with
    | zero =>
      rw [hok]
      have hsucc : (attemptIOResult (AttemptOutcome.readOk n) 0).error =
          IOErrorType.Success := rfl
      rw [if_pos hsucc]
      simp [attemptIOResult]
    | succ k2 =>
      have hfail : (oracle 0).isSuccess = false := hf 0 (by omega)
      have herr : ¬ (attemptIOResult (oracle 0) 0).error =
          IOErrorType.Success := by
        rw [attemptIOResult_error_eq_success]; simp [hfail]
      rw [if_neg herr]
      rw [ReadWithRetryGo_first_success cfg oracle (k2 + 1) n hok _ 1 _ _ _
        le_rfl (by omega) (by omega) (fun j hj1 hj2 => hf j hj2)]
      have h1 : k2 + 1 + 1 - 1 = k2 + 1 := by omega
      rw [h1]
      have h2 : 0 + 1 + (k2 + 1) = k2 + 1 + 1 := by omega
      rw [h2]
      congr 1
      simp only [List.nil_append]
      apply List.map_congr_left
      intro i hi
      congr 1
      omega
  · intro cfg oracle hf
    unfold ReadWithRetry
    simp only [ReadWithRetryGo]
    rw [if_neg (by omega : ¬ 0 < 0)]
    have hfail : (oracle 0).isSuccess = false := hf 0 (by omega)
    have herr : ¬ (attemptIOResult (oracle 0) 0).error =
        IOErrorType.Success := by
      rw [attemptIOResult_error_eq_success]; simp [hfail]
    rw [if_neg herr]
    cases hm : cfg.maxRetries with
    | zero =>
      simp [ReadWithRetryGo, hm]
    | succ m2 =>
      rw [ReadWithRetryGo_exhausted cfg oracle _ 1 _ _ _ le_rfl (by omega)
        (fun j hj1 hj2 => hf j (by omega))]
      have h1 : 1 + (m2 + 1) - 1 = m2 + 1 := by omega
      have h2 : 0 + 1 + (m2 + 1) = m2 + 1 + 1 := by omega
      rw [h1, h2]
      congr 1
      simp only [List.nil_append]
      apply List.map_congr_left
      intro i hi
      congr 1
      omega

/-- Witness for C7: a source failing twice then succeeding, with the default
configuration (`max_retries = 5`, base delay 100 ms, exponential backoff),
yields Success with `retry_count = 2`, `recovered = true`, three attempts,
and the two backoff sleeps 100 ms and 200 ms. -/
theorem readWithRetry_loop_spec_witness :
    ReadWithRetry defaultIOConfig oracleFlaky =
      ⟨⟨IOErrorType.Success, 42, 2, true⟩, 3, [100, 200]⟩ := by
  have h := readWithRetry_loop_spec.2.2.1 defaultIOConfig oracleFlaky 2 42
    (by decide) (by decide) (by rfl)
  rw [h]
  decide

/-- C6 (code bug): the claim — backed by the code's own
`IOResult::RequiresRetry` classification, which marks FileNotFound as
non-retryable — says such failures abort the retry loop immediately without
consuming retry budget; but `ReadWithRetry` never consults `RequiresRetry`,
and with every attempt failing at open (FileNotFound) under the default
configuration the loop performs all six attempts and all five backoff
sleeps before returning the last FileNotFound result. -/
theorem readWithRetry_retries_nonretryable_filenotfound :
    IOResult.RequiresRetry ⟨IOErrorType.FileNotFound, 0, 0, false⟩ = false ∧
    ReadWithRetry defaultIOConfig oracleAllOpenFail =
      ⟨⟨IOErrorType.FileNotFound, 0, 5, false⟩, 6, [100, 200, 400, 800, 1600]⟩ ∧
    (ReadWithRetry defaultIOConfig oracleAllOpenFail).attempts ≠ 1 := by
  refine ⟨by decide, by decide, by decide⟩

/-- C9: the CRC-32 function is the standard reflected CRC-32/ISO-HDLC
(table built from polynomial 0xEDB88320 by `crc32TableEntry`, initial
register 0xFFFFFFFF, final complement): the empty input hashes to 0 and the
ASCII input "123456789" hashes to the reference value 0xCBF43926. -/
theorem calculateCRC32_standard_vectors :
    CalculateCRC32 [] = 0 ∧ CalculateCRC32 crcCheckInput = 0xCBF43926 := by
  refine ⟨by decide, by decide⟩

/-- `specChunksF` of zero remaining bytes is empty at any fuel. -/
theorem specChunksF_zero (chunk : Nat) : ∀ f, specChunksF chunk f 0 = [] := by
  intro f
  cases f <;> simp [specChunksF]

/-- The fuel of `specChunksF` is irrelevant once it covers the remaining
byte count. -/
theorem specChunksF_irrel (chunk : Nat) :
    ∀ f1 f2 r, r ≤ f1 → r ≤ f2 →
      specChunksF chunk f1 r = specChunksF chunk f2 r := by
  intro f1
  induction f1 with
  | zero =>
    intro f2 r h1 h2
    have : r = 0 := by omega
    subst this
    rw [specChunksF_zero, specChunksF_zero]
  | succ g ih =>
    intro f2 r h1 h2
    by_cases hr : r = 0
    · subst hr
      rw [specChunksF_zero, specChunksF_zero]
    · cases f2 with
      | zero => omega
      | succ g2 =>
        simp only [specChunksF, if_neg hr]
        by_cases hc : chunk = 0
        · rw [if_pos hc, if_pos hc]
        · rw [if_neg hc, if_neg hc]
          congr 1
          exact ih g2 (r - min chunk r) (by omega) (by omega)

/-- Unfolding `specChunks` one chunk at positive remaining count. -/
theorem specChunks_pos (chunk r : Nat) (hc : chunk ≠ 0) (hr : 0 < r) :
    specChunks chunk r = min chunk r :: specChunks chunk (r - min chunk r) := by
  unfold specChunks
  cases r with
  | zero => omega
  | succ r2 =>
    simp only [specChunksF, if_neg (by omega : ¬ r2 + 1 = 0), if_neg hc]
    congr 1
    exact specChunksF_irrel chunk r2 (r2 + 1 - min chunk (r2 + 1))
      (r2 + 1 - min chunk (r2 + 1)) (by omega) (by omega)

/-- With every chunk read succeeding, the chunk loop consumes the whole file:
it reports cumulative progress after each chunk and feeds the detector
exactly the flagged chunks. -/
theorem ReadFileChunkedGo_ok (cfg : RobustIOConfig) (oracle : Nat → ChunkOutcome)
    (fileSize : Nat) (hc : 0 < cfg.readChunkSize)
    (hok : ∀ i, (oracle i).fail = false) :
    ∀ fuel idx bytesRead progress fed,
      fileSize - bytesRead < fuel → bytesRead ≤ fileSize →
      ReadFileChunkedGo cfg oracle fileSize fuel idx bytesRead progress fed =
        ⟨⟨IOErrorType.Success, fileSize, 0, false⟩,
         progress ++ specProgress fileSize bytesRead
           (specChunks cfg.readChunkSize (fileSize - bytesRead)),
         fed ++ specFed cfg oracle idx
           (specChunks cfg.readChunkSize (fileSize - bytesRead))⟩ := by
  intro fuel
  induction fuel with
  | zero => intro idx bytesRead progress fed h1 h2; omega
  | succ m ih =>
    intro idx bytesRead progress fed h1 h2
    simp only [ReadFileChunkedGo]
    by_cases hlt : bytesRead < fileSize
    · rw [if_pos hlt]
      rw [hok idx]
      simp only [Bool.false_eq_true, if_false]
      rw [ih (idx + 1) _ _ _ (by omega) (by omega)]
      rw [specChunks_pos cfg.readChunkSize (fileSize - bytesRead) (by omega) (by omega)]
      simp only [specProgress, specFed]
      have harith : fileSize - (bytesRead + min cfg.readChunkSize (fileSize - bytesRead)) =
          fileSize - bytesRead - min cfg.readChunkSize (fileSize - bytesRead) := by
        omega
      rw [harith]
      by_cases hD : DetectInterference cfg (oracle idx).duration
          (min cfg.readChunkSize (fileSize - bytesRead)) = true
      · rw [if_pos hD, if_pos hD]
        simp [List.append_assoc]
      · rw [if_neg hD, if_neg hD]
        simp [List.append_assoc]
    · rw [if_neg hlt]
      have hbe : bytesRead = fileSize := by omega
      subst hbe
      simp [Nat.sub_self, specChunks, specChunksF, specProgress, specFed]

/-- With the first failing chunk at relative index `K` (still inside the
file), the chunk loop aborts at that chunk with ReadError carrying exactly
the bytes of the `K` chunks already consumed, having reported progress for
and fed the detector from only those `K` chunks. -/
theorem ReadFileChunkedGo_fail (cfg : RobustIOConfig) (oracle : Nat → ChunkOutcome)
    (fileSize : Nat) (hc : 0 < cfg.readChunkSize) :
    ∀ fuel K idx bytesRead progress fed,
      fileSize - bytesRead < fuel → bytesRead ≤ fileSize →
      (∀ i, i < K → (oracle (idx + i)).fail = false) →
      (oracle (idx + K)).fail = true →
      K < (specChunks cfg.readChunkSize (fileSize - bytesRead)).length →
      ReadFileChunkedGo cfg oracle fileSize fuel idx bytesRead progress fed =
        ⟨⟨IOErrorType.ReadError,
          bytesRead + ((specChunks cfg.readChunkSize (fileSize - bytesRead)).take K).sum,
          0, false⟩,
         progress ++ specProgress fileSize bytesRead
           ((specChunks cfg.readChunkSize (fileSize - bytesRead)).take K),
         fed ++ specFed cfg oracle idx
           ((specChunks cfg.readChunkSize (fileSize - bytesRead)).take K)⟩ := by
  intro fuel
  induction fuel with
  | zero => intro K idx bytesRead progress fed h1 h2 hpre hfail hK; omega
  | succ m ih =>
    intro K idx bytesRead progress fed h1 h2 hpre hfail hK
    have hrem : 0 < fileSize - bytesRead := by
      by_contra hz
      have hzero : fileSize - bytesRead = 0 := by omega
      rw [hzero] at hK
      simp [specChunks, specChunksF] at hK
    have hlt : bytesRead < fileSize := by omega
    simp only [ReadFileChunkedGo]
    rw [if_pos hlt]
    cases K with
    | zero =>
      have hf0 : (oracle idx).fail = true := by simpa using hfail
      rw [hf0]
      simp [specProgress, specFed]
    | succ K2 =>
      have hok0 : (oracle idx).fail = false := by
        have := hpre 0 (by omega)
        simpa using this
      rw [hok0]
      simp only [Bool.false_eq_true, if_false]
      rw [ih K2 (idx + 1) _ _ _ (by omega) (by omega)
        (fun i hi => by
          have := hpre (i + 1) (by omega)
          simpa [Nat.add_assoc, Nat.add_comm 1 i] using this)
        (by
          have heq : idx + 1 + K2 = idx + (K2 + 1) := by omega
          rw [heq]; exact hfail)
        (by
          rw [specChunks_pos cfg.readChunkSize (fileSize - bytesRead) (by omega) hrem]
            at hK
          simp only [List.length_cons] at hK
          have harith : fileSize - (bytesRead + min cfg.readChunkSize (fileSize - bytesRead)) =
              fileSize - bytesRead - min cfg.readChunkSize (fileSize - bytesRead) := by
            omega
          rw [harith]
          omega)]
      rw [specChunks_pos cfg.readChunkSize (fileSize - bytesRead) (by omega) hrem]
      simp only [List.take_succ_cons, specProgress, specFed, List.sum_cons]
      have harith : fileSize - (bytesRead + min cfg.readChunkSize (fileSize - bytesRead)) =
          fileSize - bytesRead - min cfg.readChunkSize (fileSize - bytesRead) := by
        omega
      rw [harith]
      have harith2 : ∀ s : Nat,
          bytesRead + min cfg.readChunkSize (fileSize - bytesRead) + s =
          bytesRead + (min cfg.readChunkSize (fileSize - bytesRead) + s) := by
        intro s; omega
      rw [harith2]
      by_cases hD : DetectInterference cfg (oracle idx).duration
          (min cfg.readChunkSize (fileSize - bytesRead)) = true
      · rw [if_pos hD, if_pos hD]
        simp [List.append_assoc]
      · rw [if_neg hD, if_neg hD]
        simp [List.append_assoc]

/-- C8 (amended): `ReadFileChunked` streams the file in fixed-size chunks
(`min(read_chunk_size, remaining)` each), invokes the progress callback with
the cumulative byte count after each chunk, and feeds a chunk's
`(duration, size)` pair to the interference detector only when that chunk is
flagged by the interference heuristic — not for every chunk; a mid-stream
read failure at chunk `K` makes it return ReadError with `bytes_processed`
equal to the bytes of the `K` chunks already consumed, with no internal
retry (the failing chunk is attempted exactly once and the function
returns). -/
theorem readFileChunked_stream_spec :
    (∀ (cfg : RobustIOConfig) (oracle : Nat → ChunkOutcome) (fileSize : Nat),
        0 < cfg.readChunkSize →
        (∀ i, (oracle i).fail = false) →
        ReadFileChunked cfg true oracle fileSize =
          ⟨⟨IOErrorType.Success, fileSize, 0, false⟩,
           specProgress fileSize 0 (specChunks cfg.readChunkSize fileSize),
           specFed cfg oracle 0 (specChunks cfg.readChunkSize fileSize)⟩) ∧
    (∀ (cfg : RobustIOConfig) (oracle : Nat → ChunkOutcome) (fileSize K : Nat),
        0 < cfg.readChunkSize →
        (∀ i, i < K → (oracle i).fail = false) →
        (oracle K).fail = true →
        K < (specChunks cfg.readChunkSize fileSize).length →
        ReadFileChunked cfg true oracle fileSize =
          ⟨⟨IOErrorType.ReadError,
            ((specChunks cfg.readChunkSize fileSize).take K).sum, 0, false⟩,
           specProgress fileSize 0 ((specChunks cfg.readChunkSize fileSize).take K),
           specFed cfg oracle 0 ((specChunks cfg.readChunkSize fileSize).take K)⟩) := by
  constructor
  · intro cfg oracle fileSize hc hok
    unfold ReadFileChunked
    rw [if_pos rfl]
    rw [ReadFileChunkedGo_ok cfg oracle fileSize hc hok (fileSize + 1) 0 0 [] []
      (by omega) (by omega)]
    simp [Nat.sub_zero]
  · intro cfg oracle fileSize K hc hpre hfail hK
    unfold ReadFileChunked
    rw [if_pos rfl]
    rw [ReadFileChunkedGo_fail cfg oracle fileSize hc (fileSize + 1) K 0 0 [] []
      (by omega) (by omega) (fun i hi => by simpa using hpre i hi)
      (by simpa using hfail) (by simpa using hK)]
    simp [Nat.sub_zero]

/-- Counterexample to C8 as stated: with interference detection enabled
(default), a two-chunk file whose chunks complete instantly is read
successfully with both progress reports, yet the detector is fed nothing —
not each chunk's `(duration, size)` pair as the claim asserts. -/
theorem readFileChunked_fed_counterexample :
    (ReadFileChunked cfgChunk4 true oracleChunksQuiet 8).result =
      ⟨IOErrorType.Success, 8, 0, false⟩ ∧
    cfgChunk4.detectInterference = true ∧
    (ReadFileChunked cfgChunk4 true oracleChunksQuiet 8).progress =
      [(4, 8), (8, 8)] ∧
    (ReadFileChunked cfgChunk4 true oracleChunksQuiet 8).fed = [] ∧
    ([] : List (Nat × Nat)) ≠
      [((oracleChunksQuiet 0).duration, 4), ((oracleChunksQuiet 1).duration, 4)] := by
  refine ⟨by decide, by decide, by decide, by decide, by decide⟩

/-- Witness for C8 (amended): a 12-byte file read in 4-byte chunks whose
second chunk fails yields ReadError with 4 bytes processed, one progress
report, and an empty detector feed. -/
theorem readFileChunked_stream_spec_witness :
    ReadFileChunked cfgChunk4 true oracleChunkFailAt1 12 =
      ⟨⟨IOErrorType.ReadError, 4, 0, false⟩, [(4, 12)], []⟩ := by
  have h := readFileChunked_stream_spec.2 cfgChunk4 oracleChunkFailAt1 12 1
    (by decide) (by decide) (by decide) (by decide)
  rw [h]
  decide

/-- C3: Verify scans exactly the five candidate partition offsets
0x00000000, 0x0000FB20, 0x00020600, 0x02080000, 0x0FD90000 in that order,
checking the 20-byte magic at `candidate + 32*2048`; the first candidate in
list order whose magic matches is used (the result does not depend on any
later candidate); and when no candidate matches, Verify returns
FileMismatch and Initialize performs no directory parsing. -/
theorem verify_scan_spec :
    likelyOffsets = [0x00000000, 0x0000FB20, 0x00020600, 0x02080000, 0x0FD90000] ∧
    (∀ (st : ParseState) (i : Nat), i < 5 →
        (∀ j, j < i →
          VerifyMagic st (likelyOffsets.getD j 0 + 32 * kXESectorSize) = false) →
        VerifyMagic st (likelyOffsets.getD i 0 + 32 * kXESectorSize) = true →
        Verify st = VerifyRoot { st with gameOffset := likelyOffsets.getD i 0 }) ∧
    (∀ st : ParseState,
        (∀ g, g ∈ likelyOffsets → VerifyMagic st (g + 32 * kXESectorSize) = false) →
        Verify st =
          (DiscError.kErrorFileMismatch, { st with gameOffset := 0x0FD90000 }) ∧
        InitializeParse st = (false, none)) := by
  refine ⟨rfl, ?_, ?_⟩
  · intro st i hi hprev hcur
    interval_cases i
    · have hfind : findGameOffset st = some 0x00000000 := by
        simp only [likelyOffsets, List.getD_cons_zero] at hcur
        rw [Nat.zero_add] at hcur
        simp [findGameOffset, likelyOffsets, List.find?, hcur]
      simp only [likelyOffsets, List.getD_cons_zero]
      simp [Verify, hfind]
    · have h0 := hprev 0 (by omega)
      simp only [likelyOffsets, List.getD_cons_zero, List.getD_cons_succ] at h0 hcur
      rw [Nat.zero_add] at h0
      have hfind : findGameOffset st = some 0x0000FB20 := by
        simp [findGameOffset, likelyOffsets, List.find?, h0, hcur]
      simp only [likelyOffsets, List.getD_cons_zero, List.getD_cons_succ]
      simp [Verify, hfind]
    · have h0 := hprev 0 (by omega)
      have h1 := hprev 1 (by omega)
      simp only [likelyOffsets, List.getD_cons_zero, List.getD_cons_succ] at h0 h1 hcur
      rw [Nat.zero_add] at h0
      have hfind : findGameOffset st = some 0x00020600 := by
        simp [findGameOffset, likelyOffsets, List.find?, h0, h1, hcur]
      simp only [likelyOffsets, List.getD_cons_zero, List.getD_cons_succ]
      simp [Verify, hfind]
    · have h0 := hprev 0 (by omega)
      have h1 := hprev 1 (by omega)
      have h2 := hprev 2 (by omega)
      simp only [likelyOffsets, List.getD_cons_zero, List.getD_cons_succ] at h0 h1 h2 hcur
      rw [Nat.zero_add] at h0
      have hfind : findGameOffset st = some 0x02080000 := by
        simp [findGameOffset, likelyOffsets, List.find?, h0, h1, h2, hcur]
      simp only [likelyOffsets, List.getD_cons_zero, List.getD_cons_succ]
      simp [Verify, hfind]
    · have h0 := hprev 0 (by omega)
      have h1 := hprev 1 (by omega)
      have h2 := hprev 2 (by omega)
      have h3 := hprev 3 (by omega)
      simp only [likelyOffsets, List.getD_cons_zero, List.getD_cons_succ] at h0 h1 h2 h3 hcur
      rw [Nat.zero_add] at h0
      have hfind : findGameOffset st = some 0x0FD90000 := by
        simp [findGameOffset, likelyOffsets, List.find?, h0, h1, h2, h3, hcur]
      simp only [likelyOffsets, List.getD_cons_zero, List.getD_cons_succ]
      simp [Verify, hfind]
  · intro st hall
    have h0 := hall 0x00000000 (by simp [likelyOffsets])
    rw [Nat.zero_add] at h0
    have h1 := hall 0x0000FB20 (by simp [likelyOffsets])
    have h2 := hall 0x00020600 (by simp [likelyOffsets])
    have h3 := hall 0x02080000 (by simp [likelyOffsets])
    have h4 := hall 0x0FD90000 (by simp [likelyOffsets])
    have hfind : findGameOffset st = none := by
      simp [findGameOffset, likelyOffsets, List.find?, h0, h1, h2, h3, h4]
    have hv : Verify st =
        (DiscError.kErrorFileMismatch, { st with gameOffset := 0x0FD90000 }) := by
      simp [Verify, hfind]
    refine ⟨hv, ?_⟩
    simp [InitializeParse, hv]

/-- Witness for C3: an image with the magic at candidates 0x0000FB20 and
0x02080000 resolves to the first of the two, even though the later one also
matches. -/
theorem verify_scan_spec_witness :
    Verify imgC3 = VerifyRoot { imgC3 with gameOffset := 0x0000FB20 } ∧
    VerifyMagic imgC3 (0x02080000 + 32 * kXESectorSize) = true := by
  refine ⟨verify_scan_spec.2.1 imgC3 1 (by omega) (by decide) (by decide), by decide⟩

/-- Counterexample to C4 as stated: at a state where the file is too small
to contain the superblock at the (matched) offset — here the all-zero
100-byte image with game offset 0 — the post-magic-match code `VerifyRoot`
returns `kErrorReadError`, not the DamagedFile error the claim asserts. -/
theorem verifyRoot_too_small_is_readerror :
    (VerifyRoot imgTooSmall).1 = DiscError.kErrorReadError ∧
    DiscError.kErrorReadError ≠ DiscError.kErrorDamagedFile := by
  refine ⟨by decide, by decide⟩

/-- C4 (amended): after a magic match, the file-too-small-for-superblock
check returns ReadError (not DamagedFile) and is in fact unreachable,
because a successful magic match already implies the superblock offset lies
inside the file; each of the three root-descriptor violations — root size
outside [13, 32 MiB] (in particular 12), root offset not strictly below the
file size, and root offset + root size exceeding the file size — makes the
validation (and hence Verify, which dispatches to it at the matched offset)
return DamagedFile. -/
theorem verify_root_validation_spec :
    (∀ st : ParseState, st.size < st.gameOffset + 32 * kXESectorSize →
        VerifyRoot st = (DiscError.kErrorReadError, st)) ∧
    (∀ (st : ParseState) (g : Nat), findGameOffset st = some g →
        ¬ st.size < g + 32 * kXESectorSize) ∧
    (∀ st : ParseState, ¬ st.size < st.gameOffset + 32 * kXESectorSize →
        (load32 st (st.gameOffset + 32 * kXESectorSize + 24) < 13 ∨
         32 * 1024 * 1024 < load32 st (st.gameOffset + 32 * kXESectorSize + 24)) →
        (VerifyRoot st).1 = DiscError.kErrorDamagedFile) ∧
    (∀ st : ParseState, ¬ st.size < st.gameOffset + 32 * kXESectorSize →
        ¬ (load32 st (st.gameOffset + 32 * kXESectorSize + 24) < 13 ∨
           32 * 1024 * 1024 < load32 st (st.gameOffset + 32 * kXESectorSize + 24)) →
        st.size ≤ st.gameOffset +
          load32 st (st.gameOffset + 32 * kXESectorSize + 20) * kXESectorSize →
        (VerifyRoot st).1 = DiscError.kErrorDamagedFile) ∧
    (∀ st : ParseState, ¬ st.size < st.gameOffset + 32 * kXESectorSize →
        ¬ (load32 st (st.gameOffset + 32 * kXESectorSize + 24) < 13 ∨
           32 * 1024 * 1024 < load32 st (st.gameOffset + 32 * kXESectorSize + 24)) →
        ¬ st.size ≤ st.gameOffset +
          load32 st (st.gameOffset + 32 * kXESectorSize + 20) * kXESectorSize →
        st.size < st.gameOffset +
          load32 st (st.gameOffset + 32 * kXESectorSize + 20) * kXESectorSize +
          load32 st (st.gameOffset + 32 * kXESectorSize + 24) →
        (VerifyRoot st).1 = DiscError.kErrorDamagedFile) ∧
    (∀ (st : ParseState) (g : Nat), findGameOffset st = some g →
        Verify st = VerifyRoot { st with gameOffset := g }) := by
  refine ⟨?_, ?_, ?_, ?_, ?_, ?_⟩
  · intro st h
    simp [VerifyRoot, h]
  · intro st g hfind
    have hmem := List.find?_some hfind
    simp only [VerifyMagic] at hmem
    by_cases hge : st.size ≤ g + 32 * kXESectorSize
    · rw [if_pos hge] at hmem
      exact absurd hmem (by simp)
    · omega
  · intro st h1 h2
    simp only [VerifyRoot, if_neg h1, if_pos h2]
  · intro st h1 h2 h3
    simp only [VerifyRoot, if_neg h1, if_neg h2, if_pos h3]
  · intro st h1 h2 h3 h4
    simp only [VerifyRoot, if_neg h1, if_neg h2, if_neg h3, if_pos h4]
  · intro st g hfind
    simp [Verify, findGameOffset] at hfind ⊢
    rw [hfind]

/-- Witness for C4 (amended): an image with the magic at candidate 0 and a
declared root size of 12 makes Verify return DamagedFile. -/
theorem verify_root_validation_spec_witness :
    (Verify imgC4).1 = DiscError.kErrorDamagedFile ∧
    load32 imgC4 (0 + 32 * kXESectorSize + 24) = 12 := by
  have h6 := verify_root_validation_spec.2.2.2.2.2 imgC4 0 (by decide)
  have h3 := verify_root_validation_spec.2.2.1 { imgC4 with gameOffset := 0 }
    (by decide) (by decide)
  refine ⟨?_, by decide⟩
  rw [h6]
  exact h3

/-- C5: `ReadAllEntries` succeeds if and only if at least one entry was
materialized anywhere in the tree: it returns OutOfMemory exactly when the
count of decoded entries (over the whole tree) is zero, and Success exactly
when it is positive — independently of whether some subtrees failed to
decode (the flag returned by `ReadEntry` is ignored). -/
theorem readAllEntries_success_iff :
    ∀ st : ParseState,
      ((ReadAllEntries st).1 = DiscError.kSuccess ↔
        0 < countEntryList (ReadAllEntries st).2.children) ∧
      ((ReadAllEntries st).1 = DiscError.kErrorOutOfMemory ↔
        countEntryList (ReadAllEntries st).2.children = 0) := by
  intro st
  unfold ReadAllEntries
  by_cases h : countEntryList (ReadEntry st st.rootOffset 0 0 0 none).2.1 = 0
  · rw [if_pos h]
    simp [DiscEntry.children, h]
  · rw [if_neg h]
    simp only [DiscEntry.children]
    constructor
    · simp only [true_iff]
      omega
    · constructor
      · intro hcontr
        exact absurd hcontr (by simp)
      · intro hc
        exact absurd hc h

/-- Exceeding the recursion depth cap aborts the current subtree only:
the call returns false with no entries and an unchanged visited set. -/
theorem ReadEntryF_depth_guard (st : ParseState) (fuel bufferOff ord bs0 depth : Nat)
    (v : Option (List Nat)) (hd : kMaxRecursionDepth < depth) :
    ReadEntryF st (fuel + 1) bufferOff ord bs0 depth v = (false, [], v.getD []) := by
  simp only [ReadEntryF, if_pos hd]

/-- Depth guard at the fuel-free interface. -/
theorem ReadEntry_depth_guard (st : ParseState) (bufferOff ord bs0 depth : Nat)
    (v : Option (List Nat)) (hd : kMaxRecursionDepth < depth) :
    ReadEntry st bufferOff ord bs0 depth v = (false, [], v.getD []) := by
  have h : ReadEntry st bufferOff ord bs0 depth v =
      ReadEntryF st (257 + 1) bufferOff ord bs0 depth v := rfl
  rw [h, ReadEntryF_depth_guard st 257 bufferOff ord bs0 depth v hd]

/-- Re-visiting an ordinal of the current array aborts the current subtree
only: the call returns false with no entries and an unchanged visited set. -/
theorem ReadEntryF_cycle_guard (st : ParseState) (fuel bufferOff ord bs0 depth : Nat)
    (v : Option (List Nat)) (hd : ¬ kMaxRecursionDepth < depth)
    (hm : ord ∈ v.getD []) :
    ReadEntryF st (fuel + 1) bufferOff ord bs0 depth v = (false, [], v.getD []) := by
  simp only [ReadEntryF, if_neg hd, if_pos hm]

/-- Cycle guard at the fuel-free interface. -/
theorem ReadEntry_cycle_guard (st : ParseState) (bufferOff ord bs0 depth : Nat)
    (v : Option (List Nat)) (hd : ¬ kMaxRecursionDepth < depth)
    (hm : ord ∈ v.getD []) :
    ReadEntry st bufferOff ord bs0 depth v = (false, [], v.getD []) := by
  have h : ReadEntry st bufferOff ord bs0 depth v =
      ReadEntryF st (257 + 1) bufferOff ord bs0 depth v := rfl
  rw [h, ReadEntryF_cycle_guard st 257 bufferOff ord bs0 depth v hd hm]

/-- Starting from a nonzero ordinal with ordinal 0 unvisited, the traversal
of the current array never visits ordinal 0: child recursion happens only
for nonzero `node_l`/`node_r`, so the array's record 0 is reachable solely
as the entry point. -/
theorem ReadEntryF_zero_not_revisited (st : ParseState) :
    ∀ fuel bufferOff ord bs0 depth (v : Option (List Nat)),
      ord ≠ 0 → 0 ∉ v.getD [] →
      0 ∉ (ReadEntryF st fuel bufferOff ord bs0 depth v).2.2 := by
  intro fuel
  induction fuel with
  | zero =>
    intro bufferOff ord bs0 depth v ho hv
    simpa [ReadEntryF] using hv
  | succ m ih =>
    intro bufferOff ord bs0 depth v ho hv
    simp only [ReadEntryF]
    by_cases h1 : kMaxRecursionDepth < depth
    · simpa [if_pos h1] using hv
    · rw [if_neg h1]
      by_cases h2 : ord ∈ v.getD []
      · simpa [if_pos h2] using hv
      · rw [if_neg h2]
        have hv1 : 0 ∉ ord :: v.getD [] := by
          intro hc
          rcases List.mem_cons.mp hc with hc1 | hc2
          · exact ho hc1.symm
          · exact hv hc2
        by_cases h3 : 0 < effectiveBufferSize st bs0 v ∧
            effectiveBufferSize st bs0 v < ord * 4 + kMinEntrySize
        · simpa [if_pos h3] using hv1
        · rw [if_neg h3]
          by_cases h4 : 0 < effectiveBufferSize st bs0 v ∧
              effectiveBufferSize st bs0 v <
                ord * 4 + 14 + load8 st (bufferOff + ord * 4 + 13)
          · simpa [if_pos h4] using hv1
          · rw [if_neg h4]
            simp only []
            by_cases hl : load16 st (bufferOff + ord * 4) ≠ 0
            · rw [if_pos hl]
              have hv2 := ih bufferOff (load16 st (bufferOff + ord * 4))
                (effectiveBufferSize st bs0 v) (depth + 1)
                (some (ord :: v.getD [])) hl (by simpa using hv1)
              by_cases hr : load16 st (bufferOff + ord * 4 + 2) ≠ 0
              · rw [if_pos hr]
                exact ih bufferOff (load16 st (bufferOff + ord * 4 + 2))
                  (effectiveBufferSize st bs0 v) (depth + 1)
                  (some _) hr (by simpa using hv2)
              · rw [if_neg hr]
                exact hv2
            · rw [if_neg hl]
              by_cases hr : load16 st (bufferOff + ord * 4 + 2) ≠ 0
              · rw [if_pos hr]
                exact ih bufferOff (load16 st (bufferOff + ord * 4 + 2))
                  (effectiveBufferSize st bs0 v) (depth + 1)
                  (some _) hr (by simpa using hv1)
              · rw [if_neg hr]
                exact hv1


/-- A record whose `node_l` is 0 decodes no left subtree: the first entry
appended is the record's own (identified by its name bytes and attribute
flags). -/
theorem ReadEntryF_no_left_child (st : ParseState) (m bufferOff ord bs0 depth : Nat)
    (v : Option (List Nat))
    (hd : ¬ kMaxRecursionDepth < depth)
    (hm : ord ∉ v.getD [])
    (hb1 : ¬ (0 < effectiveBufferSize st bs0 v ∧
      effectiveBufferSize st bs0 v < ord * 4 + kMinEntrySize))
    (hb2 : ¬ (0 < effectiveBufferSize st bs0 v ∧
      effectiveBufferSize st bs0 v < ord * 4 + 14 + load8 st (bufferOff + ord * 4 + 13)))
    (hl : load16 st (bufferOff + ord * 4) = 0) :
    (ReadEntryF st (m + 1) bufferOff ord bs0 depth v).1 = true ∧
    ∃ e rest, (ReadEntryF st (m + 1) bufferOff ord bs0 depth v).2.1 = e :: rest ∧
      e.name = readBytes st (bufferOff + ord * 4 + 14)
        (load8 st (bufferOff + ord * 4 + 13)) ∧
      e.attributes = load8 st (bufferOff + ord * 4 + 12) ||| kFileAttributeReadOnly := by
  have hl' : ¬ load16 st (bufferOff + ord * 4) ≠ 0 := by simp [hl]
  simp only [ReadEntryF, if_neg hd, if_neg hm, if_neg hb1, if_neg hb2, if_neg hl',
    List.nil_append]
  refine ⟨trivial, _, _, rfl, ?_, ?_⟩
  · split
    · split
      · split
        · rfl
        · rfl
      · rfl
    · split
      · rfl
      · rfl
  · split
    · split
      · split
        · rfl
        · rfl
      · rfl
    · split
      · rfl
      · rfl

/-- A record whose `node_r` is 0 decodes no right subtree: the last entry
appended is the record's own. -/
theorem ReadEntryF_no_right_child (st : ParseState) (m bufferOff ord bs0 depth : Nat)
    (v : Option (List Nat))
    (hd : ¬ kMaxRecursionDepth < depth)
    (hm : ord ∉ v.getD [])
    (hb1 : ¬ (0 < effectiveBufferSize st bs0 v ∧
      effectiveBufferSize st bs0 v < ord * 4 + kMinEntrySize))
    (hb2 : ¬ (0 < effectiveBufferSize st bs0 v ∧
      effectiveBufferSize st bs0 v < ord * 4 + 14 + load8 st (bufferOff + ord * 4 + 13)))
    (hr : load16 st (bufferOff + ord * 4 + 2) = 0) :
    (ReadEntryF st (m + 1) bufferOff ord bs0 depth v).1 = true ∧
    ∃ pre e, (ReadEntryF st (m + 1) bufferOff ord bs0 depth v).2.1 = pre ++ [e] ∧
      e.name = readBytes st (bufferOff + ord * 4 + 14)
        (load8 st (bufferOff + ord * 4 + 13)) ∧
      e.attributes = load8 st (bufferOff + ord * 4 + 12) ||| kFileAttributeReadOnly := by
  have hr' : ¬ load16 st (bufferOff + ord * 4 + 2) ≠ 0 := by simp [hr]
  simp only [ReadEntryF, if_neg hd, if_neg hm, if_neg hb1, if_neg hb2, if_neg hr']
  refine ⟨trivial, _, _, rfl, ?_, ?_⟩
  · split
    · split
      · split
        · rfl
        · rfl
      · rfl
    · split
      · rfl
      · rfl
  · split
    · split
      · split
        · rfl
        · rfl
      · rfl
    · split
      · rfl
      · rfl

/-- A file record whose computed data offset lies at or beyond the image
size is still materialized, with size, data offset and data length forced
to zero, and the call still returns true. -/
theorem ReadEntryF_file_out_of_image (st : ParseState)
    (m bufferOff ord bs0 depth : Nat) (v : Option (List Nat))
    (hd : ¬ kMaxRecursionDepth < depth)
    (hm : ord ∉ v.getD [])
    (hb1 : ¬ (0 < effectiveBufferSize st bs0 v ∧
      effectiveBufferSize st bs0 v < ord * 4 + kMinEntrySize))
    (hb2 : ¬ (0 < effectiveBufferSize st bs0 v ∧
      effectiveBufferSize st bs0 v < ord * 4 + 14 + load8 st (bufferOff + ord * 4 + 13)))
    (hattr : load8 st (bufferOff + ord * 4 + 12) &&& kFileAttributeDirectory = 0)
    (hoob : st.size ≤ st.gameOffset +
      load32 st (bufferOff + ord * 4 + 4) * kXESectorSize) :
    (ReadEntryF st (m + 1) bufferOff ord bs0 depth v).1 = true ∧
    DiscEntry.mk
        (readBytes st (bufferOff + ord * 4 + 14) (load8 st (bufferOff + ord * 4 + 13)))
        (load8 st (bufferOff + ord * 4 + 12) ||| kFileAttributeReadOnly) 0
        (roundUp (load32 st (bufferOff + ord * 4 + 8)) kXESectorSize) 0 0 []
      ∈ (ReadEntryF st (m + 1) bufferOff ord bs0 depth v).2.1 := by
  have hattr' : ¬ load8 st (bufferOff + ord * 4 + 12) &&& kFileAttributeDirectory ≠ 0 := by
    simp [hattr]
  simp only [ReadEntryF, if_neg hd, if_neg hm, if_neg hb1, if_neg hb2,
    if_neg hattr', if_pos hoob]
  refine ⟨trivial, ?_⟩
  exact List.mem_append_right _ (List.mem_cons_self _ _)

/-- A directory record whose computed data offset lies strictly beyond the
image size (the code's check for directories is `size < offset`, unlike the
`offset >= size` used for files) is still materialized with size zero and no
children, and the call still returns true. -/
theorem ReadEntryF_dir_out_of_image (st : ParseState)
    (m bufferOff ord bs0 depth : Nat) (v : Option (List Nat))
    (hd : ¬ kMaxRecursionDepth < depth)
    (hm : ord ∉ v.getD [])
    (hb1 : ¬ (0 < effectiveBufferSize st bs0 v ∧
      effectiveBufferSize st bs0 v < ord * 4 + kMinEntrySize))
    (hb2 : ¬ (0 < effectiveBufferSize st bs0 v ∧
      effectiveBufferSize st bs0 v < ord * 4 + 14 + load8 st (bufferOff + ord * 4 + 13)))
    (hattr : load8 st (bufferOff + ord * 4 + 12) &&& kFileAttributeDirectory ≠ 0)
    (hoob : st.size < st.gameOffset +
      load32 st (bufferOff + ord * 4 + 4) * kXESectorSize) :
    (ReadEntryF st (m + 1) bufferOff ord bs0 depth v).1 = true ∧
    DiscEntry.mk
        (readBytes st (bufferOff + ord * 4 + 14) (load8 st (bufferOff + ord * 4 + 13)))
        (load8 st (bufferOff + ord * 4 + 12) ||| kFileAttributeReadOnly) 0
        (roundUp (load32 st (bufferOff + ord * 4 + 8)) kXESectorSize) 0 0 []
      ∈ (ReadEntryF st (m + 1) bufferOff ord bs0 depth v).2.1 := by
  simp only [ReadEntryF, if_neg hd, if_neg hm, if_neg hb1, if_neg hb2, if_pos hattr]
  by_cases hlen : load32 st (bufferOff + ord * 4 + 8) ≠ 0
  · simp only [if_pos hlen, if_pos hoob]
    refine ⟨trivial, ?_⟩
    exact List.mem_append_right _ (List.mem_cons_self _ _)
  · have hlen0 : load32 st (bufferOff + ord * 4 + 8) = 0 := by
      exact not_not.mp hlen
    simp only [if_neg hlen, hlen0]
    refine ⟨trivial, ?_⟩
    exact List.mem_append_right _ (List.mem_cons_self _ _)

/-- The embedding's fuel is irrelevant once it covers the depth budget left
under the cap: recursion is cut by the code's own depth guard, never by the
fuel, so `ReadEntry`'s fixed fuel of `kMaxRecursionDepth + 2` loses
nothing. -/
theorem ReadEntryF_fuel_irrelevant (st : ParseState) :
    ∀ f1 f2 bufferOff ord bs0 depth (v : Option (List Nat)),
      kMaxRecursionDepth + 2 ≤ f1 + depth → kMaxRecursionDepth + 2 ≤ f2 + depth →
      ReadEntryF st f1 bufferOff ord bs0 depth v =
      ReadEntryF st f2 bufferOff ord bs0 depth v := by
  intro f1
  induction f1 with
  | zero =>
    intro f2 bufferOff ord bs0 depth v h1 h2
    have hd : kMaxRecursionDepth < depth := by
      simp only [kMaxRecursionDepth] at h1 ⊢
      omega
    cases f2 with
    | zero => rfl
    | succ g =>
      rw [ReadEntryF_depth_guard st g bufferOff ord bs0 depth v hd]
      rfl
  | succ m ih =>
    intro f2 bufferOff ord bs0 depth v h1 h2
    cases f2 with
    | zero =>
      have hd : kMaxRecursionDepth < depth := by
        simp only [kMaxRecursionDepth] at h2 ⊢
        omega
      rw [ReadEntryF_depth_guard st m bufferOff ord bs0 depth v hd]
      rfl
    | succ g =>
      simp only [ReadEntryF]
      by_cases hd : kMaxRecursionDepth < depth
      · simp [hd]
      · simp only [if_neg hd]
        by_cases hmem : ord ∈ v.getD []
        · simp [hmem]
        · simp only [if_neg hmem]
          by_cases hb1 : 0 < effectiveBufferSize st bs0 v ∧
              effectiveBufferSize st bs0 v < ord * 4 + kMinEntrySize
          · simp [hb1]
          · simp only [if_neg hb1]
            by_cases hb2 : 0 < effectiveBufferSize st bs0 v ∧
                effectiveBufferSize st bs0 v <
                  ord * 4 + 14 + load8 st (bufferOff + ord * 4 + 13)
            · simp [hb2]
            · simp only [if_neg hb2]
              have ihL : ∀ (o : Nat) (vv : Option (List Nat)),
                  ReadEntryF st m bufferOff o (effectiveBufferSize st bs0 v)
                    (depth + 1) vv =
                  ReadEntryF st g bufferOff o (effectiveBufferSize st bs0 v)
                    (depth + 1) vv := by
                intro o vv
                exact ih g bufferOff o (effectiveBufferSize st bs0 v)
                  (depth + 1) vv (by omega) (by omega)
              have ihC : ∀ (fo len : Nat),
                  ReadEntryF st m fo 0 len (depth + 1) none =
                  ReadEntryF st g fo 0 len (depth + 1) none := by
                intro fo len
                exact ih g fo 0 len (depth + 1) none (by omega) (by omega)
              rw [ihL, ihL, ihC]

/-- C1: directory-tree decoding terminates on every input — the embedding
is a total function whose result is independent of any fuel at least
`kMaxRecursionDepth + 2 - depth`, recursion being cut by the depth guard
alone; exceeding the depth cap of 256 aborts only the current subtree
(false, no entries), as does re-visiting an ordinal within the same flat
array; and on a concrete image whose record 5 carries a self-referential
`node_l = 5` the cyclic subtree stops while every other entry — including a
subdirectory whose own array reuses ordinal 5, admitted by the fresh
per-array visited set — still decodes. -/
theorem readEntry_cycle_depth_containment :
    (∀ (st : ParseState) (f1 f2 bufferOff ord bs0 depth : Nat)
        (v : Option (List Nat)),
        kMaxRecursionDepth + 2 ≤ f1 + depth →
        kMaxRecursionDepth + 2 ≤ f2 + depth →
        ReadEntryF st f1 bufferOff ord bs0 depth v =
          ReadEntryF st f2 bufferOff ord bs0 depth v) ∧
    (∀ (st : ParseState) (bufferOff ord bs0 depth : Nat) (v : Option (List Nat)),
        kMaxRecursionDepth < depth →
        ReadEntry st bufferOff ord bs0 depth v = (false, [], v.getD [])) ∧
    (∀ (st : ParseState) (bufferOff ord bs0 depth : Nat) (v : Option (List Nat)),
        ¬ kMaxRecursionDepth < depth → ord ∈ v.getD [] →
        ReadEntry st bufferOff ord bs0 depth v = (false, [], v.getD [])) ∧
    ReadEntry imgC1 0 0 64 0 none =
      (true,
       [DiscEntry.mk [65] 1 3 2048 0 3 [],
        DiscEntry.mk [82] 1 5 2048 0 5 [],
        DiscEntry.mk [66] 17 64 2048 0 0
          [DiscEntry.mk [69] 1 11 2048 0 11 [],
           DiscEntry.mk [68] 1 9 2048 0 9 []]],
       [10, 5, 0]) := by
  refine ⟨?_, ?_, ?_, by decide⟩
  · intro st f1 f2 bufferOff ord bs0 depth v h1 h2
    exact ReadEntryF_fuel_irrelevant st f1 f2 bufferOff ord bs0 depth v h1 h2
  · intro st bufferOff ord bs0 depth v hd
    exact ReadEntry_depth_guard st bufferOff ord bs0 depth v hd
  · intro st bufferOff ord bs0 depth v hd hm
    exact ReadEntry_cycle_guard st bufferOff ord bs0 depth v hd hm

/-- Witness for C1: the depth guard at depth 257, the cycle guard on a
visited ordinal, and fuel-irrelevance, each at concrete inputs. -/
theorem readEntry_cycle_depth_containment_witness :
    ReadEntry imgC1 0 0 64 257 none = (false, [], []) ∧
    ReadEntry imgC1 0 5 64 1 (some [5, 0]) = (false, [], [5, 0]) ∧
    ReadEntryF imgC1 300 0 0 64 0 none = ReadEntryF imgC1 258 0 0 64 0 none := by
  refine ⟨?_, ?_, ?_⟩
  · exact readEntry_cycle_depth_containment.2.1 imgC1 0 0 64 257 none (by decide)
  · exact readEntry_cycle_depth_containment.2.2.1 imgC1 0 5 64 1 (some [5, 0])
      (by decide) (by decide)
  · exact readEntry_cycle_depth_containment.1 imgC1 300 258 0 0 64 0 none
      (by decide) (by decide)

/-- C10: a `node_l` or `node_r` of 0 means "no child".  Ordinal 0 is never
reached as a child of another record (traversal from any nonzero ordinal
with 0 unvisited never visits 0); a record with `node_l = 0` decodes no
left subtree, its own entry coming first; and a record with `node_r = 0`
decodes no right subtree, its own entry coming last. -/
theorem readEntry_zero_means_no_child :
    (∀ (st : ParseState) (bufferOff ord bs0 depth : Nat) (v : Option (List Nat)),
        ord ≠ 0 → 0 ∉ v.getD [] →
        0 ∉ (ReadEntry st bufferOff ord bs0 depth v).2.2) ∧
    (∀ (st : ParseState) (bufferOff ord bs0 depth : Nat) (v : Option (List Nat)),
        ¬ kMaxRecursionDepth < depth → ord ∉ v.getD [] →
        ¬ (0 < effectiveBufferSize st bs0 v ∧
          effectiveBufferSize st bs0 v < ord * 4 + kMinEntrySize) →
        ¬ (0 < effectiveBufferSize st bs0 v ∧
          effectiveBufferSize st bs0 v <
            ord * 4 + 14 + load8 st (bufferOff + ord * 4 + 13)) →
        load16 st (bufferOff + ord * 4) = 0 →
        (ReadEntry st bufferOff ord bs0 depth v).1 = true ∧
        ∃ e rest, (ReadEntry st bufferOff ord bs0 depth v).2.1 = e :: rest ∧
          e.name = readBytes st (bufferOff + ord * 4 + 14)
            (load8 st (bufferOff + ord * 4 + 13)) ∧
          e.attributes =
            load8 st (bufferOff + ord * 4 + 12) ||| kFileAttributeReadOnly) ∧
    (∀ (st : ParseState) (bufferOff ord bs0 depth : Nat) (v : Option (List Nat)),
        ¬ kMaxRecursionDepth < depth → ord ∉ v.getD [] →
        ¬ (0 < effectiveBufferSize st bs0 v ∧
          effectiveBufferSize st bs0 v < ord * 4 + kMinEntrySize) →
        ¬ (0 < effectiveBufferSize st bs0 v ∧
          effectiveBufferSize st bs0 v <
            ord * 4 + 14 + load8 st (bufferOff + ord * 4 + 13)) →
        load16 st (bufferOff + ord * 4 + 2) = 0 →
        (ReadEntry st bufferOff ord bs0 depth v).1 = true ∧
        ∃ pre e, (ReadEntry st bufferOff ord bs0 depth v).2.1 = pre ++ [e] ∧
          e.name = readBytes st (bufferOff + ord * 4 + 14)
            (load8 st (bufferOff + ord * 4 + 13)) ∧
          e.attributes =
            load8 st (bufferOff + ord * 4 + 12) ||| kFileAttributeReadOnly) := by
  refine ⟨?_, ?_, ?_⟩
  · intro st bufferOff ord bs0 depth v ho hv
    exact ReadEntryF_zero_not_revisited st (kMaxRecursionDepth + 2) bufferOff ord
      bs0 depth v ho hv
  · intro st bufferOff ord bs0 depth v hd hm hb1 hb2 hl
    exact ReadEntryF_no_left_child st 257 bufferOff ord bs0 depth v hd hm hb1 hb2 hl
  · intro st bufferOff ord bs0 depth v hd hm hb1 hb2 hr
    exact ReadEntryF_no_right_child st 257 bufferOff ord bs0 depth v hd hm hb1 hb2 hr

/-- Witness for C10 at record 10 of the concrete image, whose `node_l` and
`node_r` are both 0. -/
theorem readEntry_zero_means_no_child_witness :
    (0 ∉ (ReadEntry imgC1 0 10 64 1 (some [5])).2.2) ∧
    ((ReadEntry imgC1 0 10 64 1 (some [5])).1 = true ∧
      ∃ e rest, (ReadEntry imgC1 0 10 64 1 (some [5])).2.1 = e :: rest ∧
        e.name = readBytes imgC1 (0 + 10 * 4 + 14) (load8 imgC1 (0 + 10 * 4 + 13)) ∧
        e.attributes = load8 imgC1 (0 + 10 * 4 + 12) ||| kFileAttributeReadOnly) := by
  refine ⟨?_, ?_⟩
  · exact readEntry_zero_means_no_child.1 imgC1 0 10 64 1 (some [5])
      (by decide) (by decide)
  · exact readEntry_zero_means_no_child.2.1 imgC1 0 10 64 1 (some [5])
      (by decide) (by decide) (by decide) (by decide) (by decide)

/-- C2 (amended): a decoded file record whose computed absolute offset
`game_offset + sector*2048` lies at or beyond the image size is still
materialized with size, data offset and data length forced to zero, and the
parse continues (the call returns true); a decoded subdirectory record is
treated the same way only when its offset lies strictly beyond the image
size — the code's directory check is `size < offset`, so an offset exactly
equal to the size instead proceeds to read children from the end of the
image (see the counterexample). -/
theorem readEntry_out_of_image_zeroed :
    (∀ (st : ParseState) (bufferOff ord bs0 depth : Nat) (v : Option (List Nat)),
        ¬ kMaxRecursionDepth < depth → ord ∉ v.getD [] →
        ¬ (0 < effectiveBufferSize st bs0 v ∧
          effectiveBufferSize st bs0 v < ord * 4 + kMinEntrySize) →
        ¬ (0 < effectiveBufferSize st bs0 v ∧
          effectiveBufferSize st bs0 v <
            ord * 4 + 14 + load8 st (bufferOff + ord * 4 + 13)) →
        load8 st (bufferOff + ord * 4 + 12) &&& kFileAttributeDirectory = 0 →
        st.size ≤ st.gameOffset + load32 st (bufferOff + ord * 4 + 4) * kXESectorSize →
        (ReadEntry st bufferOff ord bs0 depth v).1 = true ∧
        DiscEntry.mk
            (readBytes st (bufferOff + ord * 4 + 14)
              (load8 st (bufferOff + ord * 4 + 13)))
            (load8 st (bufferOff + ord * 4 + 12) ||| kFileAttributeReadOnly) 0
            (roundUp (load32 st (bufferOff + ord * 4 + 8)) kXESectorSize) 0 0 []
          ∈ (ReadEntry st bufferOff ord bs0 depth v).2.1) ∧
    (∀ (st : ParseState) (bufferOff ord bs0 depth : Nat) (v : Option (List Nat)),
        ¬ kMaxRecursionDepth < depth → ord ∉ v.getD [] →
        ¬ (0 < effectiveBufferSize st bs0 v ∧
          effectiveBufferSize st bs0 v < ord * 4 + kMinEntrySize) →
        ¬ (0 < effectiveBufferSize st bs0 v ∧
          effectiveBufferSize st bs0 v <
            ord * 4 + 14 + load8 st (bufferOff + ord * 4 + 13)) →
        load8 st (bufferOff + ord * 4 + 12) &&& kFileAttributeDirectory ≠ 0 →
        st.size < st.gameOffset + load32 st (bufferOff + ord * 4 + 4) * kXESectorSize →
        (ReadEntry st bufferOff ord bs0 depth v).1 = true ∧
        DiscEntry.mk
            (readBytes st (bufferOff + ord * 4 + 14)
              (load8 st (bufferOff + ord * 4 + 13)))
            (load8 st (bufferOff + ord * 4 + 12) ||| kFileAttributeReadOnly) 0
            (roundUp (load32 st (bufferOff + ord * 4 + 8)) kXESectorSize) 0 0 []
          ∈ (ReadEntry st bufferOff ord bs0 depth v).2.1) := by
  refine ⟨?_, ?_⟩
  · intro st bufferOff ord bs0 depth v hd hm hb1 hb2 hattr hoob
    exact ReadEntryF_file_out_of_image st 257 bufferOff ord bs0 depth v
      hd hm hb1 hb2 hattr hoob
  · intro st bufferOff ord bs0 depth v hd hm hb1 hb2 hattr hoob
    exact ReadEntryF_dir_out_of_image st 257 bufferOff ord bs0 depth v
      hd hm hb1 hb2 hattr hoob

/-- Witness for C2 (amended): a file record with sector 1 on a 100-byte
image is kept with zero size. -/
theorem readEntry_out_of_image_zeroed_witness :
    (ReadEntry imgC2file 0 0 32 0 none).1 = true ∧
    DiscEntry.mk [70] 1 0 2048 0 0 [] ∈ (ReadEntry imgC2file 0 0 32 0 none).2.1 := by
  exact readEntry_out_of_image_zeroed.1 imgC2file 0 0 32 0 none
    (by decide) (by decide) (by decide) (by decide) (by decide) (by decide)

/-- Counterexample to C2 as stated: a directory record whose computed
absolute offset equals the image's total size (and so lies "at or beyond"
it) is materialized with its size kept at 100 — not forced to zero — and
with a child decoded from past the image end. -/
theorem readEntry_dir_at_boundary_not_zeroed :
    imgC2dir.gameOffset + load32 imgC2dir 4 * kXESectorSize = imgC2dir.size ∧
    ReadEntry imgC2dir 0 0 32 0 none =
      (true,
       [DiscEntry.mk [65] 17 100 2048 0 0 [DiscEntry.mk [] 1 0 0 0 0 []]],
       [0]) ∧
    (DiscEntry.mk [65] 17 100 2048 0 0
        [DiscEntry.mk [] 1 0 0 0 0 []]).size ≠ 0 := by
  refine ⟨by decide, by decide, by decide⟩
